import Mathlib

/-!
Verification development for the "ff" particle-fight simulation.

The repository implements the same simulation core three times:
a 2D-canvas variant (src/views/Home.vue), a worker variant driving a
WebGL rasterizer (src/unnamed/part_000, hosted by src/unnamed/part_002),
and a GPU variant (src/views/Gpu.vue).  The definitions below are
shallow embeddings of the relevant functions of the first two variants,
translated line by line from the source.  JavaScript double-precision
arithmetic is modelled by exact rationals where the code is
closed-form rational (grid bucketing, RNG, counters) and by real numbers
where square roots or real powers occur (speed clamping, collision
resolution, growth curve).  Unsigned 32-bit wrap-around in the RNG is
modelled by explicit reduction modulo 2^32.
-/

namespace FF

/-! ## Seeded RNG (src/views/Home.vue, mulberry32, lines 68-76)

JavaScript coerces every operand of a bitwise operator to its residue
modulo 2^32 (interpreted as int32/uint32).  Signed and unsigned
readings agree modulo 2^32, and Math.imul, + and the shifts used here
are all congruent modulo 2^32 to the corresponding Nat operations, so
the state is tracked as a natural number below 2^32. -/

def M32 : ℕ := 4294967296

/-- Model of Math.imul composed into subsequent mod-2^32 contexts. -/
def imul32 (a b : ℕ) : ℕ := a * b % M32

/-- One draw of the mulberry32 stream: new state and output in [0,1). -/
def mulberry32Next (t : ℕ) : ℕ × ℚ :=
  let t1 := (t + 0x6D2B79F5) % M32
  let r1 := imul32 (Nat.xor t1 (t1 >>> 15)) (t1 ||| 1)
  let r2 := Nat.xor r1 ((r1 + imul32 (Nat.xor r1 (r1 >>> 7)) (r1 ||| 61)) % M32)
  let out := Nat.xor r2 (r2 >>> 14)
  (t1, (out : ℚ) / 4294967296)

/-- Linear interpolation (src/views/Home.vue, line 78). -/
def lerpQ (a b t : ℚ) : ℚ := a + (b - a) * t

/-- Initial per-particle data produced by buildParticles: color hue and
the physical fields.  Identity metadata (name, avatar) consumes no
randomness and is omitted. -/
structure InitP where
  hue : ℤ
  x : ℚ
  y : ℚ
  vx : ℚ
  vy : ℚ
  r : ℚ
  hp : ℚ
  maxHp : ℚ
  deriving Repr, DecidableEq

/-- One loop iteration of buildParticles (src/views/Home.vue, lines
120-137): six RNG draws in source order (hue, x, y, vx, vy, radius). -/
def mkParticleHome (radiusMin radiusMax speed baseHp W H : ℚ) (t0 : ℕ) :
    ℕ × InitP :=
  let d1 := mulberry32Next t0
  let d2 := mulberry32Next d1.1
  let d3 := mulberry32Next d2.1
  let d4 := mulberry32Next d3.1
  let d5 := mulberry32Next d4.1
  let d6 := mulberry32Next d5.1
  (d6.1,
    { hue := Int.floor (d1.2 * 360)
      x := d2.2 * W
      y := d3.2 * H
      vx := (d4.2 * 2 - 1) * 80 * speed
      vy := (d5.2 * 2 - 1) * 80 * speed
      r := lerpQ radiusMin radiusMax d6.2
      hp := baseHp
      maxHp := baseHp })

/-- Particle-construction loop threading the RNG state. -/
def buildAux (radiusMin radiusMax speed baseHp W H : ℚ) :
    ℕ → ℕ → List InitP
  | _, 0 => []
  | t, k + 1 =>
    let s := mkParticleHome radiusMin radiusMax speed baseHp W H t
    s.2 :: buildAux radiusMin radiusMax speed baseHp W H s.1 k

/-- Model of buildParticles (src/views/Home.vue, lines 114-153).
The first argument is the state of the module-level rng closure left
over from any previous run; line 115 reassigns rng = mulberry32(seed)
before any draw, so that state is discarded, which is exactly what the
determinism claim is about.  n is the number of constructed particles
(the follower list truncated to maxFollowers). -/
def buildParticlesHome (prevRng seed : ℕ)
    (radiusMin radiusMax speed baseHp W H : ℚ) (n : ℕ) : List InitP :=
  buildAux radiusMin radiusMax speed baseHp W H (seed % M32) n

/-! ## Outcome tracker

Worker variant (src/unnamed/part_000): step, lines 626-643, scans hp,
normalizes into hp01, counts alive agents and remembers the last alive
index, then raises the one-shot winner event guarded by the winnerSent
latch.  The 2D-canvas variant (src/views/Home.vue, lines 351-364)
guards its winner check with the endless flag. -/

/-- Normalized health (part_000 lines 630-631): v = hp/maxHP when
maxHP is positive else 0, then clamped into [0,1]. -/
def hpNorm (maxHP v : ℚ) : ℚ :=
  let x := if 0 < maxHP then v / maxHP else 0
  if x ≤ 0 then 0 else if 1 ≤ x then 1 else x

/-- Scan loop of part_000 lines 628-634: walks the hp array with index
i, counting agents with positive normalized health and tracking the
last such index (lastIdx, initialized to -1). -/
def scanAux (maxHP : ℚ) : List ℚ → ℕ → ℕ × ℤ → ℕ × ℤ
  | [], _, acc => acc
  | v :: rest, i, acc =>
    scanAux maxHP rest (i + 1)
      (if 0 < hpNorm maxHP v then (acc.1 + 1, (i : ℤ)) else acc)

/-- Alive count and last alive index, as computed at the end of every
worker step (part_000 lines 627-635). -/
def scanW (maxHP : ℚ) (hp : List ℚ) : ℕ × ℤ :=
  scanAux maxHP hp 0 (0, -1)

/-- Winner-event logic of part_000 lines 637-643: fire once when the
alive count is exactly 1 and the latch is clear; re-arm the latch when
the count is above 1.  Returns (event fired, new latch). -/
def winnerStepW (sent : Bool) (alive : ℕ) (lastIdx : ℤ) : Bool × Bool :=
  if alive = 1 ∧ sent = false ∧ lastIdx ≠ -1 then (true, true)
  else if 1 < alive then (false, false)
  else (false, sent)

/-- Latch state before processing tick t, for a run over the hp traces
hps (hps t is the hp array at tick t).  winnerSent starts false
(part_000 line 483). -/
def sentAtW (maxHP : ℚ) (hps : ℕ → List ℚ) : ℕ → Bool
  | 0 => false
  | t + 1 =>
    (winnerStepW (sentAtW maxHP hps t) (scanW maxHP (hps t)).1
      (scanW maxHP (hps t)).2).2

/-- Whether the winner event is posted at tick t. -/
def eventAtW (maxHP : ℚ) (hps : ℕ → List ℚ) (t : ℕ) : Bool :=
  (winnerStepW (sentAtW maxHP hps t) (scanW maxHP (hps t)).1
    (scanW maxHP (hps t)).2).1

/-! ## 2D-canvas variant: agents, spatial grid, pair selection

Shallow embedding of the Particle record and of buildGrid / neighbors /
the collision pair scan of src/views/Home.vue.  The agent store is a
dense array modelled as an index function ps : ℕ → HParticle together
with a length n; buckets list indices in insertion order, which is
ascending index order because buildGrid iterates i upward. -/

structure HParticle where
  x : ℚ
  y : ℚ
  alive : Bool
  dying : Bool
  r : ℚ
  baseR : Option ℚ
  renderScale : Option ℚ
  deriving Repr, DecidableEq

/-- Inclusion test of buildGrid (src/views/Home.vue, line 159): the
agent is skipped only when it is neither alive nor dying. -/
def gridIncluded (p : HParticle) : Bool := p.alive || p.dying

/-- Cell coordinates of a particle (src/views/Home.vue, lines 160-161). -/
def cellOf (cellSize : ℚ) (p : HParticle) : ℤ × ℤ :=
  (Int.floor (p.x / cellSize), Int.floor (p.y / cellSize))

/-- Bucket of a cell: indices of included agents whose cell is c, in
ascending order (src/views/Home.vue, buildGrid, lines 156-168). -/
def bucket (n : ℕ) (ps : ℕ → HParticle) (cellSize : ℚ) (c : ℤ × ℤ) :
    List ℕ :=
  (List.range n).filter
    (fun i => gridIncluded (ps i) && decide (cellOf cellSize (ps i) = c))

/-- Neighbor generator of src/views/Home.vue, lines 169-182: the nine
cells gx in cx-1..cx+1 (outer loop) and gy in cy-1..cy+1 (inner loop)
are scanned in order and every bucket entry j with j greater than i is
yielded. -/
def neighborsList (n : ℕ) (ps : ℕ → HParticle) (cellSize : ℚ) (i : ℕ) :
    List ℕ :=
  let c := cellOf cellSize (ps i)
  let cx := c.1
  let cy := c.2
  let bAt := fun (gx gy : ℤ) =>
    (bucket n ps cellSize (gx, gy)).filter (fun j => decide (i < j))
  bAt (cx - 1) (cy - 1) ++ bAt (cx - 1) cy ++ bAt (cx - 1) (cy + 1) ++
  bAt cx (cy - 1) ++ bAt cx cy ++ bAt cx (cy + 1) ++
  bAt (cx + 1) (cy - 1) ++ bAt (cx + 1) cy ++ bAt (cx + 1) (cy + 1)

/-- Effective radius (src/views/Home.vue, getEffR, lines 193-197):
base radius (baseR falling back to r) times the growth scale, with the
death-shrink renderScale factored in while dying. -/
def getEffR (gScale : ℚ) (p : HParticle) : ℚ :=
  (p.baseR.getD p.r) *
    (if p.dying then (p.renderScale.getD 1) * gScale else gScale)

/-- Eligibility test used both for collision participation
(src/views/Home.vue, lines 291 and 293) and for the living count used
by growth and winner detection (lines 211, 245 and 353): the agent
must be alive and not dying. -/
def aliveHome (p : HParticle) : Bool := p.alive && !p.dying

/-- Living-agent count of the 2D-canvas variant (src/views/Home.vue,
lines 245 and 353: reduce over the particle array). -/
def aliveCountHome (n : ℕ) (ps : ℕ → HParticle) : ℕ :=
  ((List.range n).filter (fun i => aliveHome (ps i))).length

/-- Circle-overlap test of the narrow phase (src/views/Home.vue, lines
294-298), with each agent's current effective radius. -/
def overlapB (gScale : ℚ) (a b : HParticle) : Bool :=
  decide ((b.x - a.x) * (b.x - a.x) + (b.y - a.y) * (b.y - a.y) ≤
    (getEffR gScale a + getEffR gScale b) * (getEffR gScale a + getEffR gScale b))

/-- Pairs selected for resolution when agent i is the querying agent
(src/views/Home.vue, lines 290-298): i must be alive and not dying,
and so must each yielded neighbor j that passes the overlap test.
Flags and positions are those at the start of the scan. -/
def pairsAt (n : ℕ) (ps : ℕ → HParticle) (cellSize gScale : ℚ) (i : ℕ) :
    List (ℕ × ℕ) :=
  if aliveHome (ps i) then
    ((neighborsList n ps cellSize i).filter
      (fun j => aliveHome (ps j) && overlapB gScale (ps i) (ps j))).map
      (fun j => (i, j))
  else []

/-- Outer loop of the collision scan, i ascending from 0 to k-1. -/
def pairsUpTo (n : ℕ) (ps : ℕ → HParticle) (cellSize gScale : ℚ) :
    ℕ → List (ℕ × ℕ)
  | 0 => []
  | k + 1 => pairsUpTo n ps cellSize gScale k ++ pairsAt n ps cellSize gScale k

/-- All pairs resolved in one tick of the 2D-canvas variant. -/
def resolvedPairsHome (n : ℕ) (ps : ℕ → HParticle) (cellSize gScale : ℚ) :
    List (ℕ × ℕ) :=
  pairsUpTo n ps cellSize gScale n

/-- Winner check of the 2D-canvas variant (src/views/Home.vue, lines
351-364): only in non-endless mode, when the living count is exactly 1
and a champion is found, the winner is set. -/
def homeWinnerFires (endless : Bool) (n : ℕ) (ps : ℕ → HParticle) : Bool :=
  !endless && (aliveCountHome n ps == 1) &&
    ((List.range n).find? (fun i => aliveHome (ps i))).isSome

/-! ## Worker variant over the reals: speed clamp, integration,
collision resolution (src/unnamed/part_000).

Floating-point values are modelled as real numbers; Math.hypot and
Math.sqrt become Real.sqrt, the random heading angle of the degenerate
fallback is an explicit real argument. -/

/-- Euclidean norm of a velocity, Math.hypot(vx, vy). -/
noncomputable def speedOf (v : ℝ × ℝ) : ℝ :=
  Real.sqrt (v.1 * v.1 + v.2 * v.2)

/-- Model of clampSpeed (src/unnamed/part_000, lines 486-501), with
minS = cfg.minSpeedCss*dpr and maxS = cfg.maxSpeedCss*dpr precomputed
and the fresh random heading passed as the angle a. -/
noncomputable def clampSpeed (minS maxS a : ℝ) (v : ℝ × ℝ) : ℝ × ℝ :=
  let s := speedOf v
  if s < minS then
    if 1e-4 < s then (v.1 / s * minS, v.2 / s * minS)
    else (Real.cos a * minS, Real.sin a * minS)
  else if maxS < s then (v.1 / s * maxS, v.2 / s * maxS)
  else v

/-- Advance plus wall handling of the worker integrator
(src/unnamed/part_000, lines 510-516): position advances by velocity,
then each axis is checked against [r, max] in turn; on a hit the
position is clamped, the corresponding velocity component is negated,
and both components are multiplied by the wall boost.  The y check
sees the velocity already updated by the x check.  Returns
(x, y, vx, vy). -/
noncomputable def advanceWallsWorker (r maxX maxY boost dt : ℝ)
    (x y vx vy : ℝ) : ℝ × ℝ × ℝ × ℝ :=
  let x1 := x + vx * dt
  let y1 := y + vy * dt
  let sx : ℝ × ℝ × ℝ :=
    if x1 < r then (r, -vx * boost, vy * boost)
    else if maxX < x1 then (maxX, -vx * boost, vy * boost)
    else (x1, vx, vy)
  let sy : ℝ × ℝ × ℝ :=
    if y1 < r then (r, sx.2.1 * boost, -sx.2.2 * boost)
    else if maxY < y1 then (maxY, sx.2.1 * boost, -sx.2.2 * boost)
    else (y1, sx.2.1, sx.2.2)
  (sx.1, sy.1, sy.2.1, sy.2.2)

/-- Full per-agent integrator step of the worker (src/unnamed/part_000,
lines 508-522): advance and walls, damping by 0.999, position
assignment, then the speed clamp.  Returns (x, y, vx, vy). -/
noncomputable def integrateWorker (r maxX maxY boost dt minS maxS a : ℝ)
    (x y vx vy : ℝ) : ℝ × ℝ × ℝ × ℝ :=
  let s := advanceWallsWorker r maxX maxY boost dt x y vx vy
  let v := clampSpeed minS maxS a (s.2.2.1 * 0.999, s.2.2.2 * 0.999)
  (s.1, s.2.1, v.1, v.2)

/-- Advance plus wall handling of the 2D-canvas integrator
(src/views/Home.vue, lines 261-269): four independent checks in
sequence, each clamping the position, multiplying the reflected
component by minus the elasticity, and multiplying both components by
the wall boost.  Returns (x, y, vx, vy). -/
noncomputable def advanceWallsHome (effR W H e boost dt : ℝ)
    (x y vx vy : ℝ) : ℝ × ℝ × ℝ × ℝ :=
  let x1 := x + vx * dt
  let y1 := y + vy * dt
  let s1 : ℝ × ℝ × ℝ :=
    if x1 - effR < 0 then (effR, -vx * e * boost, vy * boost)
    else (x1, vx, vy)
  let s2 : ℝ × ℝ × ℝ :=
    if s1.1 + effR > W then (W - effR, -s1.2.1 * e * boost, s1.2.2 * boost)
    else s1
  let s3 : ℝ × ℝ × ℝ × ℝ :=
    if y1 - effR < 0 then (s2.1, effR, s2.2.1 * boost, -s2.2.2 * e * boost)
    else (s2.1, y1, s2.2.1, s2.2.2)
  let s4 : ℝ × ℝ × ℝ × ℝ :=
    if s3.2.1 + effR > H then (s3.1, H - effR, s3.2.2.1 * boost, -s3.2.2.2 * e * boost)
    else s3
  s4

/-- State of an unordered pair of agents entering the narrow phase. -/
structure PairState where
  pxi : ℝ
  pyi : ℝ
  vxi : ℝ
  vyi : ℝ
  hpi : ℝ
  pxj : ℝ
  pyj : ℝ
  vxj : ℝ
  vyj : ℝ
  hpj : ℝ

/-- Narrow-phase resolution of one candidate pair in the worker
(src/unnamed/part_000, lines 562-596): circle test on the shared
current radius rNow, epsilon-floored distance, symmetric positional
split, elastic impulse with e = 1 when the pair is closing, hit boost,
speed clamp of both agents (with fallback angles aI, aJ), and one
damage draw u in [0,1) subtracted from both agents. -/
noncomputable def resolvePair (rNow hitBoost minS maxS dmgMin dmgMax aI aJ u : ℝ)
    (s : PairState) : PairState :=
  let dx := s.pxj - s.pxi
  let dy := s.pyj - s.pyi
  let rsum := rNow + rNow
  let dist2 := dx * dx + dy * dy
  if rsum * rsum < dist2 then s else
  let dist := if Real.sqrt dist2 = 0 then 1e-6 else Real.sqrt dist2
  let nx := dx / dist
  let ny := dy / dist
  let overlap := rsum - dist
  let corr := overlap * 0.5
  let e : ℝ := 1
  let rvx := s.vxj - s.vxi
  let rvy := s.vyj - s.vyi
  let vn := rvx * nx + rvy * ny
  let w : ℝ × ℝ × ℝ × ℝ :=
    if vn < 0 then
      let jimp := -(1 + e) * vn * 0.5
      (s.vxi - jimp * nx, s.vyi - jimp * ny, s.vxj + jimp * nx, s.vyj + jimp * ny)
    else (s.vxi, s.vyi, s.vxj, s.vyj)
  let vI := clampSpeed minS maxS aI (w.1 * hitBoost, w.2.1 * hitBoost)
  let vJ := clampSpeed minS maxS aJ (w.2.2.1 * hitBoost, w.2.2.2 * hitBoost)
  let dmin := min dmgMin dmgMax
  let dmax := max dmgMin dmgMax
  let dmg := dmin + u * (dmax - dmin)
  { pxi := s.pxi - nx * corr
    pyi := s.pyi - ny * corr
    vxi := vI.1
    vyi := vI.2
    hpi := s.hpi - dmg
    pxj := s.pxj + nx * corr
    pyj := s.pyj + ny * corr
    vxj := vJ.1
    vyj := vJ.2
    hpj := s.hpj - dmg }

/-! ## Division-guarded variants for the numeric-safety claim

The same two functions transcribed with every division routed through
divOpt, which refuses a zero divisor.  Agreement with the plain models
shows no division site can ever divide by zero. -/

noncomputable def divOpt (a b : ℝ) : Option ℝ :=
  if b = 0 then none else some (a / b)

/-- Division-guarded transcription of clampSpeed. -/
noncomputable def clampSpeedChecked (minS maxS a : ℝ) (v : ℝ × ℝ) :
    Option (ℝ × ℝ) :=
  let s := speedOf v
  if s < minS then
    if 1e-4 < s then
      (divOpt v.1 s).bind fun ux =>
        (divOpt v.2 s).bind fun uy => some (ux * minS, uy * minS)
    else some (Real.cos a * minS, Real.sin a * minS)
  else if maxS < s then
    (divOpt v.1 s).bind fun ux =>
      (divOpt v.2 s).bind fun uy => some (ux * maxS, uy * maxS)
  else some v

/-- Division-guarded transcription of resolvePair. -/
noncomputable def resolvePairChecked
    (rNow hitBoost minS maxS dmgMin dmgMax aI aJ u : ℝ) (s : PairState) :
    Option PairState :=
  let dx := s.pxj - s.pxi
  let dy := s.pyj - s.pyi
  let rsum := rNow + rNow
  let dist2 := dx * dx + dy * dy
  if rsum * rsum < dist2 then some s else
  let dist := if Real.sqrt dist2 = 0 then 1e-6 else Real.sqrt dist2
  (divOpt dx dist).bind fun nx =>
    (divOpt dy dist).bind fun ny =>
      let overlap := rsum - dist
      let corr := overlap * 0.5
      let e : ℝ := 1
      let rvx := s.vxj - s.vxi
      let rvy := s.vyj - s.vyi
      let vn := rvx * nx + rvy * ny
      let w : ℝ × ℝ × ℝ × ℝ :=
        if vn < 0 then
          let jimp := -(1 + e) * vn * 0.5
          (s.vxi - jimp * nx, s.vyi - jimp * ny, s.vxj + jimp * nx, s.vyj + jimp * ny)
        else (s.vxi, s.vyi, s.vxj, s.vyj)
      (clampSpeedChecked minS maxS aI (w.1 * hitBoost, w.2.1 * hitBoost)).bind fun vI =>
        (clampSpeedChecked minS maxS aJ (w.2.2.1 * hitBoost, w.2.2.2 * hitBoost)).bind fun vJ =>
          let dmin := min dmgMin dmgMax
          let dmax := max dmgMin dmgMax
          let dmg := dmin + u * (dmax - dmin)
          some
            { pxi := s.pxi - nx * corr
              pyi := s.pyi - ny * corr
              vxi := vI.1
              vyi := vI.2
              hpi := s.hpi - dmg
              pxj := s.pxj + nx * corr
              pyj := s.pyj + ny * corr
              vxj := vJ.1
              vyj := vJ.2
              hpj := s.hpj - dmg }

/-! ## Growth controller (src/views/Home.vue, lines 83-86 and 198-207) -/

/-- Clamp of src/views/Home.vue, line 77. -/
noncomputable def clampR (v lo hi : ℝ) : ℝ := max lo (min hi v)

/-- Smoothstep with an epsilon-floored denominator (src/views/Home.vue,
lines 83-86). -/
noncomputable def smoothstep (e0 e1 x : ℝ) : ℝ :=
  let t := clampR ((x - e0) / max 1e-6 (e1 - e0)) 0 1
  t * t * (3 - 2 * t)

/-- Target growth scale (src/views/Home.vue, targetGrowthScale, lines
198-207): the dead fraction is mapped through a smoothstep between the
two survivor thresholds converted to dead fractions, raised to the
growth exponent, and interpolated between 1 and the maximal scale. -/
noncomputable def targetGrowthScale
    (startSurv fullSurv maxScale expo : ℝ) (initialAlive aliveCount : ℕ) : ℝ :=
  let N0 : ℝ := max 1 (initialAlive : ℝ)
  let aliveFrac := (aliveCount : ℝ) / N0
  let startDead := 1 - startSurv
  let fullDead := 1 - fullSurv
  let deadFrac := 1 - aliveFrac
  let t := (smoothstep startDead fullDead deadFrac) ^ expo
  1 + (maxScale - 1) * t

/-! ## Theorems -/

section Theorems

/-- C9: particle construction is a function of seed, configuration and
arena dimensions alone; buildParticles reseeds the RNG from the seed
before the first draw, so any prior RNG state (first argument) and any
difference in run history is irrelevant, and two runs with the same
seed, configuration and arena produce identical positions, velocities,
radii and health values. -/
theorem buildParticles_deterministic
    (r1 r2 s1 s2 : ℕ) (rm1 rm2 rx1 rx2 sp1 sp2 bh1 bh2 W1 W2 H1 H2 : ℚ)
    (n1 n2 : ℕ) (hs : s1 = s2) (hrm : rm1 = rm2) (hrx : rx1 = rx2)
    (hsp : sp1 = sp2) (hbh : bh1 = bh2) (hW : W1 = W2) (hH : H1 = H2)
    (hn : n1 = n2) :
    buildParticlesHome r1 s1 rm1 rx1 sp1 bh1 W1 H1 n1 =
      buildParticlesHome r2 s2 rm2 rx2 sp2 bh2 W2 H2 n2 := by
  subst hs hrm hrx hsp hbh hW hH hn
  rfl

/-- Witness for C9: two builds with different leftover RNG states but
the same seed 42, the same configuration and the same 960 by 540 arena
coincide. -/
theorem buildParticles_deterministic_witness :
    buildParticlesHome 0 42 10 12 (14/10) 400 960 540 3 =
      buildParticlesHome 123456 42 10 12 (14/10) 400 960 540 3 :=
  buildParticles_deterministic 0 123456 42 42 10 10 12 12 (14/10) (14/10)
    400 400 960 960 540 540 3 3 rfl rfl rfl rfl rfl rfl rfl rfl

/-! Helper lemmas about the Euclidean norm. -/

lemma speedOf_nonneg (v : ℝ × ℝ) : 0 ≤ speedOf v := Real.sqrt_nonneg _

lemma speedOf_div_scale (x y s m : ℝ) :
    speedOf (x / s * m, y / s * m) = |m / s| * speedOf (x, y) := by
  unfold speedOf
  have h : x / s * m * (x / s * m) + y / s * m * (y / s * m) =
      (m / s) ^ 2 * (x * x + y * y) := by ring
  rw [h, Real.sqrt_mul (sq_nonneg _), Real.sqrt_sq_eq_abs]

lemma speedOf_cossin_scale (a m : ℝ) :
    speedOf (Real.cos a * m, Real.sin a * m) = |m| := by
  unfold speedOf
  have h : Real.cos a * m * (Real.cos a * m) + Real.sin a * m * (Real.sin a * m) =
      m ^ 2 * 1 := by
    have hp := Real.sin_sq_add_cos_sq a
    nlinarith [hp]
  rw [h, Real.sqrt_mul (sq_nonneg _), Real.sqrt_sq_eq_abs, Real.sqrt_one, mul_one]

/-- C3: for non-negative speed bounds with minSpeed at most maxSpeed
(the host UIs clamp the two speed fields into exactly this region),
the speed immediately after clampSpeed lies in [minSpeed, maxSpeed];
below the minimum the velocity is rescaled to the minimum preserving
direction unless its norm is at most the 1e-4 epsilon, in which case a
fresh heading at exactly the minimum speed is assigned; above the
maximum it is rescaled down to the maximum. -/
theorem clampSpeed_range_spec (minS maxS a : ℝ) (v : ℝ × ℝ)
    (h0 : 0 ≤ minS) (h1 : minS ≤ maxS) :
    (minS ≤ speedOf (clampSpeed minS maxS a v) ∧
      speedOf (clampSpeed minS maxS a v) ≤ maxS) ∧
    (speedOf v < minS → 1e-4 < speedOf v →
      clampSpeed minS maxS a v =
        (v.1 / speedOf v * minS, v.2 / speedOf v * minS)) ∧
    (speedOf v < minS → speedOf v ≤ 1e-4 →
      clampSpeed minS maxS a v = (Real.cos a * minS, Real.sin a * minS)) ∧
    (maxS < speedOf v →
      clampSpeed minS maxS a v =
        (v.1 / speedOf v * maxS, v.2 / speedOf v * maxS)) := by
  have hs0 : 0 ≤ speedOf v := speedOf_nonneg v
  refine ⟨?_, ?_, ?_, ?_⟩
  · simp only [clampSpeed]
    split_ifs with hlt heps hmax
    · have hspos : (0 : ℝ) < speedOf v := lt_trans (by norm_num) heps
      rw [speedOf_div_scale, Prod.mk.eta,
        abs_of_nonneg (div_nonneg h0 (le_of_lt hspos)),
        div_mul_cancel₀ _ (ne_of_gt hspos)]
      exact ⟨le_refl _, h1⟩
    · rw [speedOf_cossin_scale, abs_of_nonneg h0]
      exact ⟨le_refl _, h1⟩
    · have hspos : (0 : ℝ) < speedOf v :=
        lt_of_le_of_lt (le_trans h0 h1) hmax
      rw [speedOf_div_scale, Prod.mk.eta,
        abs_of_nonneg (div_nonneg (le_trans h0 h1) (le_of_lt hspos)),
        div_mul_cancel₀ _ (ne_of_gt hspos)]
      exact ⟨h1, le_refl _⟩
    · exact ⟨not_lt.mp hlt, not_lt.mp hmax⟩
  · intro hlt heps
    simp only [clampSpeed, if_pos hlt, if_pos heps]
  · intro hlt heps
    simp only [clampSpeed, if_pos hlt, if_neg (not_lt.mpr heps)]
  · intro hmax
    have hnlt : ¬ speedOf v < minS := not_lt.mpr (le_trans h1 (le_of_lt hmax))
    simp only [clampSpeed, if_neg hnlt, if_pos hmax]

/-- Witness for C3 at the bounds 5 and 10 with velocity (30, 40) of
norm 50: the clamp rescales to the maximum and the resulting speed
sits in the interval. -/
theorem clampSpeed_range_spec_witness :
    (0 : ℝ) ≤ 5 ∧ (5 : ℝ) ≤ 10 ∧
      (5 ≤ speedOf (clampSpeed 5 10 0 ((30 : ℝ), (40 : ℝ))) ∧
        speedOf (clampSpeed 5 10 0 ((30 : ℝ), (40 : ℝ))) ≤ 10) :=
  ⟨by norm_num, by norm_num,
    (clampSpeed_range_spec 5 10 0 ((30 : ℝ), (40 : ℝ)) (by norm_num)
      (by norm_num)).1⟩

/-! Helper lemmas on the worker alive scan. -/

lemma scanAux_snd_nonneg (m : ℚ) :
    ∀ (l : List ℚ) (i : ℕ) (acc : ℕ × ℤ),
      0 ≤ acc.2 → 0 ≤ (scanAux m l i acc).2 := by
  intro l
  induction l with
  | nil => intro i acc h; exact h
  | cons v rest ih =>
    intro i acc h
    simp only [scanAux]
    split_ifs with hv
    · exact ih (i + 1) (acc.1 + 1, (i : ℤ)) (Int.natCast_nonneg i)
    · exact ih (i + 1) acc h

lemma scanAux_grew_snd_nonneg (m : ℚ) :
    ∀ (l : List ℚ) (i : ℕ) (acc : ℕ × ℤ),
      acc.1 < (scanAux m l i acc).1 → 0 ≤ (scanAux m l i acc).2 := by
  intro l
  induction l with
  | nil => intro i acc h; exact absurd h (lt_irrefl _)
  | cons v rest ih =>
    intro i acc h
    simp only [scanAux] at h ⊢
    split_ifs with hv
    · exact scanAux_snd_nonneg m rest (i + 1) (acc.1 + 1, (i : ℤ))
        (Int.natCast_nonneg i)
    · rw [if_neg hv] at h
      exact ih (i + 1) acc h

lemma scanW_lastIdx_of_alive (m : ℚ) (l : List ℚ)
    (h : 1 ≤ (scanW m l).1) : (scanW m l).2 ≠ -1 := by
  have h2 : (0 : ℕ) < (scanAux m l 0 (0, -1)).1 := h
  have h3 := scanAux_grew_snd_nonneg m l 0 (0, -1) h2
  intro hc
  rw [scanW] at hc
  omega

/-- C1: winner-event behavior.  First, the 2D-canvas variant never
raises a winner in endless mode (its whole winner check sits under the
non-endless guard).  Second, for the worker tracker over any run of hp
arrays, the event is raised at the tick on which the alive count comes
down from above 1 to exactly 1.  Third, once raised, the event is not
raised again on any later tick while the count stays at 1; because the
latch clears whenever the count is above 1, the second part also gives
re-arming after any forced reset. -/
theorem winner_once_rearm_endless :
    (∀ (n : ℕ) (ps : ℕ → HParticle), homeWinnerFires true n ps = false) ∧
    (∀ (m : ℚ) (hps : ℕ → List ℚ) (t : ℕ),
      1 < (scanW m (hps t)).1 → (scanW m (hps (t + 1))).1 = 1 →
      eventAtW m hps (t + 1) = true) ∧
    (∀ (m : ℚ) (hps : ℕ → List ℚ) (t u : ℕ),
      eventAtW m hps t = true → t < u →
      (∀ w, t < w → w ≤ u → (scanW m (hps w)).1 = 1) →
      eventAtW m hps u = false) := by
  refine ⟨?_, ?_, ?_⟩
  · intro n ps
    simp [homeWinnerFires]
  · intro m hps t hgt h1
    have hsent : sentAtW m hps (t + 1) = false := by
      simp only [sentAtW, winnerStepW]
      have hnc : ¬((scanW m (hps t)).1 = 1 ∧ sentAtW m hps t = false ∧
          (scanW m (hps t)).2 ≠ -1) := by
        rintro ⟨h, -, -⟩
        omega
      rw [if_neg hnc, if_pos hgt]
    have hidx : (scanW m (hps (t + 1))).2 ≠ -1 :=
      scanW_lastIdx_of_alive m (hps (t + 1)) (by omega)
    simp only [eventAtW, winnerStepW]
    rw [if_pos ⟨h1, hsent, hidx⟩]
  · intro m hps t u hev hlt hstay
    have hcond : (scanW m (hps t)).1 = 1 ∧ sentAtW m hps t = false ∧
        (scanW m (hps t)).2 ≠ -1 := by
      by_contra hc
      simp only [eventAtW, winnerStepW, if_neg hc] at hev
      split_ifs at hev
    have hsent1 : sentAtW m hps (t + 1) = true := by
      simp only [sentAtW, winnerStepW]
      rw [if_pos hcond]
    have key : ∀ w, t + 1 ≤ w → w ≤ u → sentAtW m hps w = true := by
      intro w hw1
      induction hw1 with
      | refl => intro _; exact hsent1
      | @step w2 hle ih =>
        intro hw2
        have hsw : sentAtW m hps w2 = true := ih (Nat.le_of_succ_le hw2)
        have hal : (scanW m (hps w2)).1 = 1 :=
          hstay w2 (Nat.lt_of_succ_le hle) (Nat.le_of_succ_le hw2)
        simp only [sentAtW, winnerStepW]
        have hnc : ¬((scanW m (hps w2)).1 = 1 ∧ sentAtW m hps w2 = false ∧
            (scanW m (hps w2)).2 ≠ -1) := by
          rintro ⟨-, hf, -⟩
          rw [hsw] at hf
          cases hf
        rw [if_neg hnc, if_neg (by omega : ¬1 < (scanW m (hps w2)).1), hsw]
    have hsu : sentAtW m hps u = true := key u (by omega) (le_refl u)
    simp only [eventAtW, winnerStepW]
    have hnc : ¬((scanW m (hps u)).1 = 1 ∧ sentAtW m hps u = false ∧
        (scanW m (hps u)).2 ≠ -1) := by
      rintro ⟨-, hf, -⟩
      rw [hsu] at hf
      cases hf
    rw [if_neg hnc]
    split_ifs <;> rfl

/-- Concrete two-agent hp run for the C1 witness: both agents start at
full health, agent 1 is dead from tick 1 onward. -/
def hpsWit : ℕ → List ℚ := fun t => if t = 0 then [1, 1] else [1, 0]

/-- Concrete particle array for the C1 witness. -/
def psWit : ℕ → HParticle := fun _ =>
  { x := 0, y := 0, alive := true, dying := false, r := 1,
    baseR := none, renderScale := none }

/-- Witness for C1: on the run hpsWit the count drops from 2 to 1 at
tick 1, the event fires there, does not fire again at tick 2, and the
2D-canvas endless guard never fires. -/
theorem winner_once_rearm_endless_witness :
    homeWinnerFires true 2 psWit = false ∧
      eventAtW 1 hpsWit 1 = true ∧ eventAtW 1 hpsWit 2 = false := by
  have hB := winner_once_rearm_endless.2.1 1 hpsWit 0
    (by norm_num [scanW, scanAux, hpNorm, hpsWit])
    (by norm_num [scanW, scanAux, hpNorm, hpsWit])
  have hC := winner_once_rearm_endless.2.2 1 hpsWit 1 2 hB (by omega)
    (by
      intro w h1 h2
      have hw : w = 2 := by omega
      subst hw
      norm_num [scanW, scanAux, hpNorm, hpsWit])
  exact ⟨winner_once_rearm_endless.1 2 psWit, hB, hC⟩

/-! Helper lemmas on the growth curve. -/

lemma clampR01_mem (v : ℝ) : 0 ≤ clampR v 0 1 ∧ clampR v 0 1 ≤ 1 := by
  unfold clampR
  constructor
  · exact le_max_left _ _
  · exact max_le (by norm_num) (min_le_left _ _)

lemma clampR_mono (lo hi : ℝ) {a b : ℝ} (h : a ≤ b) :
    clampR a lo hi ≤ clampR b lo hi := by
  unfold clampR
  exact max_le_max (le_refl _) (min_le_min (le_refl _) h)

lemma smoothstep_eq (e0 e1 x : ℝ) :
    smoothstep e0 e1 x =
      clampR ((x - e0) / max 1e-6 (e1 - e0)) 0 1 *
        clampR ((x - e0) / max 1e-6 (e1 - e0)) 0 1 *
        (3 - 2 * clampR ((x - e0) / max 1e-6 (e1 - e0)) 0 1) := rfl

lemma smoothstep_mem (e0 e1 x : ℝ) :
    0 ≤ smoothstep e0 e1 x ∧ smoothstep e0 e1 x ≤ 1 := by
  rw [smoothstep_eq]
  obtain ⟨h0, h1⟩ := clampR01_mem ((x - e0) / max 1e-6 (e1 - e0))
  set t := clampR ((x - e0) / max 1e-6 (e1 - e0)) 0 1 with ht
  constructor
  · nlinarith
  · nlinarith [sq_nonneg (1 - t)]

lemma smoothstep_mono (e0 e1 : ℝ) {x1 x2 : ℝ} (h : x1 ≤ x2) :
    smoothstep e0 e1 x1 ≤ smoothstep e0 e1 x2 := by
  rw [smoothstep_eq, smoothstep_eq]
  have hD : (0 : ℝ) < max 1e-6 (e1 - e0) :=
    lt_of_lt_of_le (by norm_num) (le_max_left _ _)
  have hq : (x1 - e0) / max 1e-6 (e1 - e0) ≤ (x2 - e0) / max 1e-6 (e1 - e0) := by
    gcongr
  obtain ⟨ha0, ha1⟩ := clampR01_mem ((x1 - e0) / max 1e-6 (e1 - e0))
  obtain ⟨hb0, hb1⟩ := clampR01_mem ((x2 - e0) / max 1e-6 (e1 - e0))
  have h12 := clampR_mono 0 1 hq
  set t1 := clampR ((x1 - e0) / max 1e-6 (e1 - e0)) 0 1
  set t2 := clampR ((x2 - e0) / max 1e-6 (e1 - e0)) 0 1
  nlinarith [mul_nonneg (sub_nonneg.mpr h12) (sub_nonneg.mpr ha0),
    mul_nonneg (sub_nonneg.mpr h12) (sub_nonneg.mpr hb1),
    mul_nonneg (mul_nonneg (sub_nonneg.mpr h12) (sub_nonneg.mpr ha0))
      (sub_nonneg.mpr hb1)]

/-- C5: for growthMaxScale at least 1, a positive growth exponent and
growthFullSurvivors at most growthStartSurvivors, the target growth
scale is monotonically non-decreasing as the alive count decreases and
always lies in [1, growthMaxScale]. -/
theorem growth_target_mono_bounded (ss fs ms ex : ℝ)
    (hms : 1 ≤ ms) (hex : 0 < ex) (hfs : fs ≤ ss)
    (N0 a1 a2 : ℕ) (h12 : a1 ≤ a2) :
    targetGrowthScale ss fs ms ex N0 a2 ≤ targetGrowthScale ss fs ms ex N0 a1 ∧
      1 ≤ targetGrowthScale ss fs ms ex N0 a1 ∧
      targetGrowthScale ss fs ms ex N0 a1 ≤ ms := by
  unfold targetGrowthScale
  have hD : (0 : ℝ) < max 1 ((N0 : ℕ) : ℝ) :=
    lt_of_lt_of_le one_pos (le_max_left _ _)
  have hdead : 1 - (a2 : ℝ) / max 1 ((N0 : ℕ) : ℝ) ≤
      1 - (a1 : ℝ) / max 1 ((N0 : ℕ) : ℝ) := by
    have hc : ((a1 : ℕ) : ℝ) ≤ ((a2 : ℕ) : ℝ) := Nat.cast_le.mpr h12
    have hq : (a1 : ℝ) / max 1 ((N0 : ℕ) : ℝ) ≤
        (a2 : ℝ) / max 1 ((N0 : ℕ) : ℝ) := by gcongr
    linarith
  have hsm := smoothstep_mono (1 - ss) (1 - fs) hdead
  obtain ⟨hs20, hs21⟩ := smoothstep_mem (1 - ss) (1 - fs)
    (1 - (a2 : ℝ) / max 1 ((N0 : ℕ) : ℝ))
  obtain ⟨hs10, hs11⟩ := smoothstep_mem (1 - ss) (1 - fs)
    (1 - (a1 : ℝ) / max 1 ((N0 : ℕ) : ℝ))
  have hrm : smoothstep (1 - ss) (1 - fs) (1 - (a2 : ℝ) / max 1 ((N0 : ℕ) : ℝ)) ^ ex ≤
      smoothstep (1 - ss) (1 - fs) (1 - (a1 : ℝ) / max 1 ((N0 : ℕ) : ℝ)) ^ ex :=
    Real.rpow_le_rpow hs20 hsm (le_of_lt hex)
  have hr10 : 0 ≤ smoothstep (1 - ss) (1 - fs)
      (1 - (a1 : ℝ) / max 1 ((N0 : ℕ) : ℝ)) ^ ex := Real.rpow_nonneg hs10 ex
  have hr11 : smoothstep (1 - ss) (1 - fs)
      (1 - (a1 : ℝ) / max 1 ((N0 : ℕ) : ℝ)) ^ ex ≤ 1 :=
    Real.rpow_le_one hs10 hs11 (le_of_lt hex)
  refine ⟨?_, ?_, ?_⟩
  · nlinarith
  · nlinarith
  · nlinarith

/-- Witness for C5 at the configuration of the spec scenario
(growthStartSurvivors 0.4, growthFullSurvivors 0.05, growthMaxScale
4.5, exponent 1) with 10 initial agents and alive counts 3 and 5. -/
theorem growth_target_mono_bounded_witness :
    (1 : ℝ) ≤ 4.5 ∧ (0 : ℝ) < 1 ∧ (0.05 : ℝ) ≤ 0.4 ∧ (3 : ℕ) ≤ 5 ∧
      (targetGrowthScale 0.4 0.05 4.5 1 10 5 ≤
          targetGrowthScale 0.4 0.05 4.5 1 10 3 ∧
        1 ≤ targetGrowthScale 0.4 0.05 4.5 1 10 3 ∧
        targetGrowthScale 0.4 0.05 4.5 1 10 3 ≤ 4.5) :=
  ⟨by norm_num, by norm_num, by norm_num, by norm_num,
    growth_target_mono_bounded 0.4 0.05 4.5 1 (by norm_num) (by norm_num)
      (by norm_num) 10 3 5 (by norm_num)⟩

/-- C7: in every resolved colliding pair, one uniform draw u in [0,1)
produces one damage value in [min(dmgMin,dmgMax), max(dmgMin,dmgMax)]
and exactly that value is subtracted from both agents' health. -/
theorem collision_damage_symmetric
    (rNow hitBoost minS maxS dmgMin dmgMax aI aJ u : ℝ) (s : PairState)
    (hcol : (s.pxj - s.pxi) * (s.pxj - s.pxi) +
        (s.pyj - s.pyi) * (s.pyj - s.pyi) ≤ (rNow + rNow) * (rNow + rNow))
    (hu0 : 0 ≤ u) (hu1 : u < 1) :
    ((resolvePair rNow hitBoost minS maxS dmgMin dmgMax aI aJ u s).hpi =
        s.hpi - (min dmgMin dmgMax +
          u * (max dmgMin dmgMax - min dmgMin dmgMax)) ∧
      (resolvePair rNow hitBoost minS maxS dmgMin dmgMax aI aJ u s).hpj =
        s.hpj - (min dmgMin dmgMax +
          u * (max dmgMin dmgMax - min dmgMin dmgMax))) ∧
    min dmgMin dmgMax ≤
      min dmgMin dmgMax + u * (max dmgMin dmgMax - min dmgMin dmgMax) ∧
    min dmgMin dmgMax + u * (max dmgMin dmgMax - min dmgMin dmgMax) ≤
      max dmgMin dmgMax := by
  have hnot : ¬((rNow + rNow) * (rNow + rNow) <
      (s.pxj - s.pxi) * (s.pxj - s.pxi) +
        (s.pyj - s.pyi) * (s.pyj - s.pyi)) := not_lt.mpr hcol
  have hmm : min dmgMin dmgMax ≤ max dmgMin dmgMax :=
    le_trans (min_le_left _ _) (le_max_left _ _)
  refine ⟨⟨?_, ?_⟩, ?_, ?_⟩
  · simp only [resolvePair, if_neg hnot]
  · simp only [resolvePair, if_neg hnot]
  · nlinarith
  · nlinarith [mul_nonneg (sub_nonneg.mpr (le_of_lt hu1))
      (sub_nonneg.mpr hmm)]

/-- Concrete pre-collision pair for the C2 counterexample and the C7
witness: both agents are inside the arena portion [10, 90] on each
axis, at distance 5 with shared radius 10. -/
def sCex : PairState :=
  { pxi := 10, pyi := 50, vxi := 0, vyi := 0, hpi := 100,
    pxj := 14, pyj := 53, vxj := 0, vyj := 0, hpj := 100 }

/-- Witness for C7 on the pair sCex with damage range [6, 14] and
draw u = 1/2. -/
theorem collision_damage_symmetric_witness :
    ((sCex.pxj - sCex.pxi) * (sCex.pxj - sCex.pxi) +
        (sCex.pyj - sCex.pyi) * (sCex.pyj - sCex.pyi) ≤
      ((10 : ℝ) + 10) * ((10 : ℝ) + 10)) ∧ (0 : ℝ) ≤ 1/2 ∧ (1/2 : ℝ) < 1 ∧
    (((resolvePair 10 1 0 20 6 14 0 0 (1/2) sCex).hpi =
        sCex.hpi - (min (6 : ℝ) 14 + 1/2 * (max (6 : ℝ) 14 - min (6 : ℝ) 14)) ∧
      (resolvePair 10 1 0 20 6 14 0 0 (1/2) sCex).hpj =
        sCex.hpj - (min (6 : ℝ) 14 + 1/2 * (max (6 : ℝ) 14 - min (6 : ℝ) 14))) ∧
      min (6 : ℝ) 14 ≤
        min (6 : ℝ) 14 + 1/2 * (max (6 : ℝ) 14 - min (6 : ℝ) 14) ∧
      min (6 : ℝ) 14 + 1/2 * (max (6 : ℝ) 14 - min (6 : ℝ) 14) ≤
        max (6 : ℝ) 14) :=
  ⟨by norm_num [sCex], by norm_num, by norm_num,
    collision_damage_symmetric 10 1 0 20 6 14 0 0 (1/2) sCex
      (by norm_num [sCex]) (by norm_num) (by norm_num)⟩

/-- Counterexample for C2: the two in-bounds agents of sCex overlap
near the left wall of a 100 by 100 arena with effective radius 10; the
collision resolver's positional split moves agent i to x = 4, outside
[radius, size - radius], and nothing re-clamps it within the same
tick.  Positions are therefore not always within bounds after the
collision-resolution phase. -/
theorem resolve_out_of_bounds_cex :
    ((10 : ℝ) ≤ sCex.pxi ∧ sCex.pxi ≤ 90 ∧ (10 : ℝ) ≤ sCex.pyi ∧
      sCex.pyi ≤ 90 ∧ (10 : ℝ) ≤ sCex.pxj ∧ sCex.pxj ≤ 90 ∧
      (10 : ℝ) ≤ sCex.pyj ∧ sCex.pyj ≤ 90) ∧
    (resolvePair 10 1 0 20 6 14 0 0 (1/2) sCex).pxi = 4 ∧ ((4 : ℝ) < 10) := by
  have hsq : Real.sqrt 25 = 5 := by
    rw [show (25 : ℝ) = 5 ^ 2 by norm_num, Real.sqrt_sq (by norm_num : (0:ℝ) ≤ 5)]
  refine ⟨by norm_num [sCex], ?_, by norm_num⟩
  have h25 : ((14 : ℝ) - 10) * ((14 : ℝ) - 10) + ((53 : ℝ) - 50) * ((53 : ℝ) - 50) =
      25 := by norm_num
  simp only [resolvePair, sCex]
  rw [h25, hsq]
  norm_num

/-- C2 as amended: after the integration phase of a tick (advance,
wall clamp, damping, speed clamp) every agent's position lies within
[r, size - r] on each axis, provided the arena is at least one
diameter wide on each axis; the collision-resolution phase that
follows can push positions out of bounds (see the counterexample),
and they are only re-clamped by the next tick's integration. -/
theorem position_in_bounds_after_integration
    (r maxX maxY boost dt minS maxS a x y vx vy : ℝ)
    (hx : r ≤ maxX) (hy : r ≤ maxY) :
    (r ≤ (integrateWorker r maxX maxY boost dt minS maxS a x y vx vy).1 ∧
      (integrateWorker r maxX maxY boost dt minS maxS a x y vx vy).1 ≤ maxX) ∧
    (r ≤ (integrateWorker r maxX maxY boost dt minS maxS a x y vx vy).2.1 ∧
      (integrateWorker r maxX maxY boost dt minS maxS a x y vx vy).2.1 ≤ maxY) := by
  simp only [integrateWorker, advanceWallsWorker]
  split_ifs <;> refine ⟨⟨?_, ?_⟩, ?_, ?_⟩ <;> first | linarith | simp_all

/-- Witness for the amended C2 on a 100 by 100 arena with radius 10:
an agent advancing past the left wall is clamped back into bounds. -/
theorem position_in_bounds_after_integration_witness :
    ((10 : ℝ) ≤ 90 ∧ (10 : ℝ) ≤ 90) ∧
    ((10 ≤ (integrateWorker 10 90 90 1.1 1 0 20 0 15 50 (-20) 0).1 ∧
        (integrateWorker 10 90 90 1.1 1 0 20 0 15 50 (-20) 0).1 ≤ 90) ∧
      (10 ≤ (integrateWorker 10 90 90 1.1 1 0 20 0 15 50 (-20) 0).2.1 ∧
        (integrateWorker 10 90 90 1.1 1 0 20 0 15 50 (-20) 0).2.1 ≤ 90)) :=
  ⟨⟨by norm_num, by norm_num⟩,
    position_in_bounds_after_integration 10 90 90 1.1 1 0 20 0 15 50 (-20) 0
      (by norm_num) (by norm_num)⟩

/-- Counterexample for C4: in the 2D-canvas variant, an agent crossing
the left wall with incoming vx = 5, elasticity 4/5 and wall boost 1
leaves with vx = -4, not with the exact negation -5 times the boost;
the reflected component's magnitude is scaled by the elasticity, so
the claim that the negation leaves the magnitude otherwise unchanged
fails on this variant. -/
theorem home_wall_scales_by_elasticity_cex :
    (advanceWallsHome 10 100 100 (4/5) 1 1 0 50 5 0).2.2.1 = -4 ∧
      ((-4 : ℝ) ≠ -5 * 1) := by
  constructor
  · simp only [advanceWallsHome]
    norm_num
  · norm_num

/-- C4 as amended: in the worker variant the integrator behaves
exactly as claimed on each axis (clamp to the bound, negate exactly
the offending component, multiply the whole velocity by the wall
boost); in the 2D-canvas variant the negated component is additionally
multiplied by the elasticity before the wall boost is applied.  The
four worker conjuncts cover the two bounds of each axis with the other
axis in range; the last conjunct gives the 2D-canvas left-wall
behavior. -/
theorem wall_reflection_spec :
    (∀ r maxX maxY boost dt x y vx vy : ℝ,
      x + vx * dt < r → r ≤ y + vy * dt → y + vy * dt ≤ maxY →
      advanceWallsWorker r maxX maxY boost dt x y vx vy =
        (r, y + vy * dt, -vx * boost, vy * boost)) ∧
    (∀ r maxX maxY boost dt x y vx vy : ℝ, r ≤ maxX →
      maxX < x + vx * dt → r ≤ y + vy * dt → y + vy * dt ≤ maxY →
      advanceWallsWorker r maxX maxY boost dt x y vx vy =
        (maxX, y + vy * dt, -vx * boost, vy * boost)) ∧
    (∀ r maxX maxY boost dt x y vx vy : ℝ,
      r ≤ x + vx * dt → x + vx * dt ≤ maxX → y + vy * dt < r →
      advanceWallsWorker r maxX maxY boost dt x y vx vy =
        (x + vx * dt, r, vx * boost, -vy * boost)) ∧
    (∀ r maxX maxY boost dt x y vx vy : ℝ, r ≤ maxY →
      r ≤ x + vx * dt → x + vx * dt ≤ maxX → maxY < y + vy * dt →
      advanceWallsWorker r maxX maxY boost dt x y vx vy =
        (x + vx * dt, maxY, vx * boost, -vy * boost)) ∧
    (∀ effR W H e boost dt x y vx vy : ℝ,
      x + vx * dt - effR < 0 → ¬(effR + effR > W) →
      ¬(y + vy * dt - effR < 0) → ¬(y + vy * dt + effR > H) →
      advanceWallsHome effR W H e boost dt x y vx vy =
        (effR, y + vy * dt, -vx * e * boost, vy * boost)) := by
  refine ⟨?_, ?_, ?_, ?_, ?_⟩
  · intro r maxX maxY boost dt x y vx vy h1 h2 h3
    simp only [advanceWallsWorker]
    split_ifs <;> first | rfl | (exfalso; linarith)
  · intro r maxX maxY boost dt x y vx vy h0 h1 h2 h3
    simp only [advanceWallsWorker]
    split_ifs <;> first | rfl | (exfalso; linarith)
  · intro r maxX maxY boost dt x y vx vy h1 h2 h3
    simp only [advanceWallsWorker]
    split_ifs <;> first | rfl | (exfalso; linarith)
  · intro r maxX maxY boost dt x y vx vy h0 h1 h2 h3
    simp only [advanceWallsWorker]
    split_ifs <;> first | rfl | (exfalso; linarith)
  · intro effR W H e boost dt x y vx vy h1 h2 h3 h4
    simp only [advanceWallsHome]
    split_ifs <;> first | rfl | (exfalso; linarith)

/-- Witness for C4 (amended): worker left-wall bounce at radius 10 on
a 100-wide arena with boost 1.1, incoming velocity (-20, 0) from
(15, 50) over dt = 1. -/
theorem wall_reflection_spec_witness :
    ((15 : ℝ) + (-20) * 1 < 10 ∧ (10 : ℝ) ≤ 50 + 0 * 1 ∧
      (50 : ℝ) + 0 * 1 ≤ 90) ∧
    advanceWallsWorker 10 90 90 1.1 1 15 50 (-20) 0 =
      (10, 50 + 0 * 1, -(-20) * 1.1, 0 * 1.1) :=
  ⟨⟨by norm_num, by norm_num, by norm_num⟩,
    wall_reflection_spec.1 10 90 90 1.1 1 15 50 (-20) 0 (by norm_num)
      (by norm_num) (by norm_num)⟩

/-! Helper lemmas for the division-guarded models. -/

lemma clampSpeedChecked_eq (minS maxS a : ℝ) (v : ℝ × ℝ)
    (h0 : 0 ≤ minS) (h1 : minS ≤ maxS) :
    clampSpeedChecked minS maxS a v = some (clampSpeed minS maxS a v) := by
  simp only [clampSpeedChecked, clampSpeed]
  split_ifs with hlt heps hmax
  · have hs : speedOf v ≠ 0 := ne_of_gt (lt_trans (by norm_num) heps)
    simp [divOpt, hs]
  · rfl
  · have hspos : (0 : ℝ) < speedOf v := lt_of_le_of_lt (le_trans h0 h1) hmax
    simp [divOpt, ne_of_gt hspos]
  · rfl

lemma resolvePairChecked_eq
    (rNow hitBoost minS maxS dmgMin dmgMax aI aJ u : ℝ) (s : PairState)
    (h0 : 0 ≤ minS) (h1 : minS ≤ maxS) :
    resolvePairChecked rNow hitBoost minS maxS dmgMin dmgMax aI aJ u s =
      some (resolvePair rNow hitBoost minS maxS dmgMin dmgMax aI aJ u s) := by
  by_cases hc : (rNow + rNow) * (rNow + rNow) <
      (s.pxj - s.pxi) * (s.pxj - s.pxi) + (s.pyj - s.pyi) * (s.pyj - s.pyi)
  · simp only [resolvePairChecked, resolvePair, if_pos hc]
  · have hdist : (if Real.sqrt ((s.pxj - s.pxi) * (s.pxj - s.pxi) +
        (s.pyj - s.pyi) * (s.pyj - s.pyi)) = 0 then (1e-6 : ℝ)
        else Real.sqrt ((s.pxj - s.pxi) * (s.pxj - s.pxi) +
          (s.pyj - s.pyi) * (s.pyj - s.pyi))) ≠ 0 := by
      split_ifs with h
      · norm_num
      · exact h
    simp only [resolvePairChecked, resolvePair, if_neg hc, divOpt,
      if_neg hdist, Option.some_bind,
      clampSpeedChecked_eq _ _ _ _ h0 h1]

/-- C8: no division by zero can occur in a tick.  The guarded
transcriptions of the speed clamp and of the narrow-phase pair
resolution, in which every division refuses a zero divisor, agree with
the plain models on every input whenever the speed bounds satisfy
0 less-or-equal minSpeed less-or-equal maxSpeed: the 1e-4 epsilon
floor (with the randomized fallback heading) guards the clamp's
divisions and the 1e-6 floored distance guards the collision normal,
so no position, velocity or health value is ever produced by a
division by zero. -/
theorem no_division_by_zero (minS maxS : ℝ) (h0 : 0 ≤ minS)
    (h1 : minS ≤ maxS) :
    (∀ (a : ℝ) (v : ℝ × ℝ),
      clampSpeedChecked minS maxS a v = some (clampSpeed minS maxS a v)) ∧
    (∀ (rNow hitBoost dmgMin dmgMax aI aJ u : ℝ) (s : PairState),
      resolvePairChecked rNow hitBoost minS maxS dmgMin dmgMax aI aJ u s =
        some (resolvePair rNow hitBoost minS maxS dmgMin dmgMax aI aJ u s)) :=
  ⟨fun a v => clampSpeedChecked_eq minS maxS a v h0 h1,
    fun rNow hitBoost dmgMin dmgMax aI aJ u s =>
      resolvePairChecked_eq rNow hitBoost minS maxS dmgMin dmgMax aI aJ u s
        h0 h1⟩

/-- Witness for C8 at speed bounds 5 and 10, on a degenerate zero
velocity and on the concrete pair sCex. -/
theorem no_division_by_zero_witness :
    (0 : ℝ) ≤ 5 ∧ (5 : ℝ) ≤ 10 ∧
      clampSpeedChecked 5 10 0 ((0 : ℝ), (0 : ℝ)) =
        some (clampSpeed 5 10 0 ((0 : ℝ), (0 : ℝ))) ∧
      resolvePairChecked 10 1 5 10 6 14 0 0 (1/2) sCex =
        some (resolvePair 10 1 5 10 6 14 0 0 (1/2) sCex) :=
  ⟨by norm_num, by norm_num,
    (no_division_by_zero 5 10 (by norm_num) (by norm_num)).1 0 ((0 : ℝ), (0 : ℝ)),
    (no_division_by_zero 5 10 (by norm_num) (by norm_num)).2 10 1 6 14 0 0
      (1/2) sCex⟩

/-! Helper lemmas on grid buckets and counts. -/

lemma count_filter_nat (p : ℕ → Bool) (l : List ℕ) (j : ℕ) :
    (l.filter p).count j = if p j = true then l.count j else 0 := by
  induction l with
  | nil => simp
  | cons a t ih =>
    by_cases haj : a = j
    · subst haj
      by_cases hpa : p a = true
      · simp [List.filter_cons, hpa, List.count_cons, ih]
      · simp [List.filter_cons, hpa, List.count_cons, ih]
    · have hbe : (a == j) = false := beq_eq_false_iff_ne.mpr haj
      by_cases hpa : p a = true
      · simp [List.filter_cons, hpa, List.count_cons, ih, hbe]
      · simp [List.filter_cons, hpa, List.count_cons, ih, hbe]

lemma count_range_ite (n j : ℕ) :
    (List.range n).count j = if j < n then 1 else 0 := by
  induction n with
  | zero => simp
  | succ n ih =>
    rw [List.range_succ, List.count_append, ih, List.count_singleton]
    simp only [beq_iff_eq]
    split_ifs <;> omega

lemma count_bucket (n : ℕ) (ps : ℕ → HParticle) (cs : ℚ) (c : ℤ × ℤ) (j : ℕ) :
    (bucket n ps cs c).count j =
      if j < n ∧ gridIncluded (ps j) = true ∧ cellOf cs (ps j) = c then 1
      else 0 := by
  unfold bucket
  rw [count_filter_nat, count_range_ite]
  by_cases h1 : gridIncluded (ps j) = true <;>
    by_cases h2 : cellOf cs (ps j) = c <;> by_cases h3 : j < n <;>
      simp [h1, h2, h3, Bool.and_eq_true, decide_eq_true_eq]

lemma count_term (n : ℕ) (ps : ℕ → HParticle) (cs : ℚ) (gx gy : ℤ) (i j : ℕ) :
    ((bucket n ps cs (gx, gy)).filter (fun k => decide (i < k))).count j =
      if i < j ∧ j < n ∧ gridIncluded (ps j) = true ∧
          cellOf cs (ps j) = (gx, gy) then 1
      else 0 := by
  rw [count_filter_nat, count_bucket]
  by_cases h : i < j <;> simp [h, decide_eq_true_eq, and_assoc]

/-- C6: for agents bucketed into the 2D-canvas spatial grid, the
neighbor query is complete and non-duplicating: whenever included
agents i and j with i less than j occupy the same cell or adjacent
cells, j is yielded by the query for i, exactly once, and i is never
yielded by the query for j, so each unordered pair is visited exactly
once per tick. -/
theorem neighbors_pair_once (n : ℕ) (ps : ℕ → HParticle) (cs : ℚ) (i j : ℕ)
    (hij : i < j) (hjn : j < n)
    (hgi : gridIncluded (ps i) = true) (hgj : gridIncluded (ps j) = true)
    (hax1 : (cellOf cs (ps j)).1 - (cellOf cs (ps i)).1 ≤ 1)
    (hax2 : -1 ≤ (cellOf cs (ps j)).1 - (cellOf cs (ps i)).1)
    (hay1 : (cellOf cs (ps j)).2 - (cellOf cs (ps i)).2 ≤ 1)
    (hay2 : -1 ≤ (cellOf cs (ps j)).2 - (cellOf cs (ps i)).2) :
    j ∈ neighborsList n ps cs i ∧
      (neighborsList n ps cs i).count j = 1 ∧
      (neighborsList n ps cs j).count i = 0 := by
  have hcount : (neighborsList n ps cs i).count j = 1 := by
    simp only [neighborsList, List.count_append, count_term]
    simp only [hij, hjn, hgj, eq_self_iff_true, true_and, Prod.ext_iff]
    split_ifs <;> omega
  refine ⟨List.count_pos_iff.mp (by rw [hcount]; norm_num), hcount, ?_⟩
  have hni : ¬ j < i := by omega
  simp only [neighborsList, List.count_append, count_term]
  simp [hni]

/-- Particle array for the C6 witness: two alive agents at the origin
of the arena, sharing the grid cell (0, 0). -/
def psPair : ℕ → HParticle := fun k =>
  if k = 0 then
    { x := 0, y := 0, alive := true, dying := false, r := 1,
      baseR := none, renderScale := none }
  else
    { x := 1/2, y := 1/2, alive := true, dying := false, r := 1,
      baseR := none, renderScale := none }

/-- Witness for C6 on psPair with cell size 16: agent 1 is yielded
exactly once by the query for agent 0 and agent 0 never by the query
for agent 1. -/
theorem neighbors_pair_once_witness :
    1 ∈ neighborsList 2 psPair 16 0 ∧
      (neighborsList 2 psPair 16 0).count 1 = 1 ∧
      (neighborsList 2 psPair 16 1).count 0 = 0 :=
  neighbors_pair_once 2 psPair 16 0 1 (by norm_num) (by norm_num)
    (by norm_num [gridIncluded, psPair]) (by norm_num [gridIncluded, psPair])
    (by norm_num [cellOf, psPair]) (by norm_num [cellOf, psPair])
    (by norm_num [cellOf, psPair]) (by norm_num [cellOf, psPair])

/-! Helper lemma decoding membership in the resolved-pair list. -/

lemma mem_pairsUpTo_alive (n : ℕ) (ps : ℕ → HParticle) (cs g : ℚ) :
    ∀ (k i j : ℕ), (i, j) ∈ pairsUpTo n ps cs g k →
      aliveHome (ps i) = true ∧ aliveHome (ps j) = true := by
  intro k
  induction k with
  | zero => intro i j h; simp [pairsUpTo] at h
  | succ k ih =>
    intro i j h
    rw [pairsUpTo, List.mem_append] at h
    rcases h with h | h
    · exact ih i j h
    · rw [pairsAt] at h
      split_ifs at h with ha
      · simp only [List.mem_map, List.mem_filter] at h
        obtain ⟨j2, ⟨-, hprop⟩, heq⟩ := h
        rw [Bool.and_eq_true] at hprop
        obtain ⟨hj2, -⟩ := hprop
        obtain ⟨hk, hj⟩ := Prod.mk.injEq .. ▸ heq
        subst hk
        subst hj
        exact ⟨ha, hj2⟩
      · simp at h

/-- C10: in the 2D-canvas variant, a Dying agent is still inserted
into the spatial grid (buildGrid keeps agents that are alive or
dying), yet it can never be either member of a resolved collision pair
(both members must pass the alive-and-not-dying test), and it never
counts toward the living count used for growth and winner detection
(that count uses the same alive-and-not-dying predicate). -/
theorem dying_in_grid_not_resolved :
    (∀ (n : ℕ) (ps : ℕ → HParticle) (cs : ℚ) (d : ℕ), d < n →
      (ps d).dying = true → d ∈ bucket n ps cs (cellOf cs (ps d))) ∧
    (∀ (n : ℕ) (ps : ℕ → HParticle) (cs g : ℚ) (i j : ℕ),
      (i, j) ∈ resolvedPairsHome n ps cs g →
      (ps i).dying = false ∧ (ps j).dying = false) ∧
    (∀ p : HParticle, p.dying = true → aliveHome p = false) := by
  refine ⟨?_, ?_, ?_⟩
  · intro n ps cs d hd hdying
    unfold bucket
    refine List.mem_filter.mpr ⟨List.mem_range.mpr hd, ?_⟩
    simp [gridIncluded, hdying]
  · intro n ps cs g i j h
    obtain ⟨hi, hj⟩ := mem_pairsUpTo_alive n ps cs g n i j h
    rw [aliveHome, Bool.and_eq_true] at hi hj
    exact ⟨by simpa using hi.2, by simpa using hj.2⟩
  · intro p h
    simp [aliveHome, h]

/-- Dying agent for the C10 witness. -/
def pDying : HParticle :=
  { x := 3, y := 4, alive := true, dying := true, r := 1,
    baseR := none, renderScale := none }

/-- Witness for C10: the dying agent pDying, alone in a store of size
1, is inserted into the bucket of its own cell and does not satisfy
the living predicate. -/
theorem dying_in_grid_not_resolved_witness :
    (0 : ℕ) < 1 ∧ pDying.dying = true ∧
      0 ∈ bucket 1 (fun _ => pDying) 16 (cellOf 16 pDying) ∧
      aliveHome pDying = false :=
  ⟨by norm_num, by rfl,
    dying_in_grid_not_resolved.1 1 (fun _ => pDying) 16 0 (by norm_num) (by rfl),
    dying_in_grid_not_resolved.2.2 pDying (by rfl)⟩

end Theorems

end FF
